import Mathlib

/-!
Verification of the Trackr commit-sync core (src/extension.ts).

Shallow embedding of the deduplicating commit-log synchronizer:
  * `logEntry` — the LogEntry serialization built at extension.ts:127.
  * `splitLines`, `isBlank`, `upToColon`, `findGroup2`, `matchHash`,
    `extractHashes` — the line-by-line regex parse
    `line.match(/\x5b(.*?)\x5d (.*?):/)` used by `loadProcessedCommits`
    (extension.ts:85-93), with JavaScript lazy-group backtracking semantics.
  * `loadProcessedCommits` — the ledger-seeding function (extension.ts:74-100),
    with the surrounding try/catch modelled by the error constructors of
    `GetLogResult` mapping to the unchanged ledger.
  * `trackGitChange` — the sync operation (extension.ts:102-189).  The remote
    store is an external collaborator, so one run is parameterized by an
    oracle: the list of responses the store returns, one `AttemptResp` per
    fetch/write attempt.  The run also emits the trace of remote-store calls
    it performed (`RemoteCall`), so frame properties ("zero write calls") are
    statements about the trace.  Exhausting the oracle while the code would
    recurse again is reported as `SyncStatus.stillRetrying`: the source
    recursion at extension.ts:179 has no bound of its own.

Local mutable state (`LocalState`) carries the in-memory `processedCommits`
set (as a duplicate-free-by-construction list), the local mirror file content
at `~/git.trackr.log` (extension.ts:159-160), and the copy stored in
`context.workspaceState` (extension.ts:173).
-/

/-- A commit as read from `git.log(['-1']).latest` (extension.ts:120):
hash, commit message, and date string. -/
structure CommitRecord where
  hash : String
  message : String
  date : String
deriving DecidableEq, Repr

/-- The LogEntry serialization built at extension.ts:127:
`[<date>] <hash>: <message>\n`. -/
def logEntry (c : CommitRecord) : String :=
  "[" ++ c.date ++ "] " ++ c.hash ++ ": " ++ c.message ++ "\n"

/-- JavaScript `content.split('\n')` on a character list: split at every
newline, keeping empty segments (extension.ts:85). -/
def splitLines : List Char → List (List Char)
  | [] => [[]]
  | '\n' :: rest => [] :: splitLines rest
  | c :: rest =>
    match splitLines rest with
    | [] => [[c]]
    | l :: ls => (c :: l) :: ls

/-- JavaScript `line.trim()` being falsy: the line is all whitespace
(extension.ts:86 filters such lines out). -/
def isBlank (l : List Char) : Bool :=
  l.all fun c => c == ' ' || c == '\t' || c == '\r' || c == '\n'

/-- The lazy group `(.*?)` immediately before a literal `:`: the characters
strictly before the first colon, or `none` if no colon follows (forcing the
regex engine to backtrack). -/
def upToColon : List Char → Option (List Char)
  | [] => none
  | c :: cs => if c = ':' then some [] else (upToColon cs).map fun g => c :: g

/-- Given the characters after the opening `[` of a candidate match, run the
rest of `/\x5b(.*?)\x5d (.*?):/`: the first group lazily absorbs characters
until a `] ` that is itself followed by a colon, and the second group is then
everything up to that first colon.  Returns the second capture group. -/
def findGroup2 : List Char → Option (List Char)
  | [] => none
  | ']' :: ' ' :: rest =>
    match upToColon rest with
    | some g => some g
    | none => findGroup2 rest
  | _ :: rest => findGroup2 rest

/-- JavaScript `line.match(/\x5b(.*?)\x5d (.*?):/)`, returning capture group 2
(the hash field) of the leftmost match, or `none` when the line does not
match (extension.ts:88-89). -/
def matchHash : List Char → Option (List Char)
  | [] => none
  | '[' :: rest =>
    match findGroup2 rest with
    | some g => some g
    | none => matchHash rest
  | _ :: rest => matchHash rest

/-- The hash-extraction pipeline of extension.ts:85-91: split into lines,
drop blank lines, match each remaining line against the LogEntry regex, and
keep the captured hash of every matching line. -/
def extractHashes (content : List Char) : List (List Char) :=
  ((splitLines content).filter fun l => !(isBlank l)).filterMap matchHash

/-- JavaScript `Set.prototype.add` on the list-backed ledger: append the hash
unless already present (so the list stays duplicate-free and insertion
ordered, like the source `Set`). -/
def recordHash (l : List String) (h : String) : List String :=
  if h ∈ l then l else l ++ [h]

/-- Outcome of the `octokit.repos.getContent` call inside
`loadProcessedCommits` (extension.ts:77-94): file found with decoded content,
found but without a `content` field, a 404 error, or any other error. -/
inductive GetLogResult where
  | found (content : String)
  | foundNonFile
  | err404
  | errOther
deriving DecidableEq, Repr

/-- `loadProcessedCommits` (extension.ts:74-100) as a function from the remote
read's outcome and the current in-memory set to the updated set.  The
enclosing try/catch swallows every error (logging non-404 ones), so both
error constructors leave the ledger unchanged; on success every extracted
hash is added to the existing set. -/
def loadProcessedCommits (r : GetLogResult) (ledger : List String) : List String :=
  match r with
  | .found content =>
    (extractHashes content.toList).foldl (fun l h => recordHash l (String.mk h)) ledger
  | .foundNonFile => ledger
  | .err404 => ledger
  | .errOther => ledger

/-- Outcome of `octokit.repos.createOrUpdateFileContents`
(extension.ts:162-169): success, an HTTP 409 version conflict, or any other
(fatal) error. -/
inductive PutResult where
  | ok
  | conflict
  | fatal
deriving DecidableEq, Repr

/-- The remote store's responses for one fetch/write attempt of
`trackGitChange`: either the `getContent` call fails with a non-404 error
(rethrown at extension.ts:153), or it delivers `remote` — `none` for a 404
(content treated as empty, no sha) or `some (content, sha)` — after which the
conditional write returns `put`. -/
inductive AttemptResp where
  | fetchFatal
  | fetched (remote : Option (String × String)) (put : PutResult)
deriving DecidableEq, Repr

/-- One remote-store call as it appears in a run's trace: a content fetch
(recording what the store delivered), a fetch that failed fatally, or a
conditional write of `content` with `expectedSha` as precondition
(`none` means a create with no precondition, extension.ts:168). -/
inductive RemoteCall where
  | getCall (result : Option (String × String))
  | getFailCall
  | putCall (content : String) (expectedSha : Option String)
deriving DecidableEq, Repr

/-- Result of one triggered sync: deduplicated skip (extension.ts:123-125),
successful append of `newContent`, fatal failure caught by the outer handler
(extension.ts:184-188), or the retry recursion still running when the
response oracle ran out (the source loop is unbounded). -/
inductive SyncStatus where
  | skipped
  | appended (newContent : String)
  | fatal
  | stillRetrying
deriving DecidableEq, Repr

/-- The mutable local state `trackGitChange` touches: the in-memory
`processedCommits` set (extension.ts:10), the mirror file
`~/git.trackr.log` (`none` = not yet written, extension.ts:159-160), and the
`processedCommits` copy in `context.workspaceState` (extension.ts:173). -/
structure LocalState where
  ledger : List String
  mirror : Option String
  wsState : Option (List String)
deriving DecidableEq, Repr

/-- Content the code uses for a fetched remote: empty string on 404
(extension.ts:151), the delivered content otherwise. -/
def contentOf : Option (String × String) → String
  | none => ""
  | some p => p.1

/-- Version tag the code passes to the conditional write: absent on 404, the
fetched sha otherwise (extension.ts:145, 168). -/
def shaOf : Option (String × String) → Option String
  | none => none
  | some p => some p.2

/-- `trackGitChange` (extension.ts:102-189) for commit `c`, consuming one
oracle entry per fetch/write attempt.  Mirrors the source order: dedup check
first (line 123); on an attempt, fetch (lines 135-155), build
`newContent = content + logEntry` (line 157), overwrite the local mirror
file (lines 159-160), then the conditional write (lines 162-169).  On
success the hash is recorded and the ledger copied to workspaceState (lines
172-173); on a 409 the whole function recurses (line 179); any other error
is rethrown to the outer catch, which only reports it.  Returns the sync
status, the final local state, and the trace of remote-store calls. -/
def trackGitChange (c : CommitRecord) (oracle : List AttemptResp) (st : LocalState) :
    SyncStatus × LocalState × List RemoteCall :=
  if c.hash ∈ st.ledger then (.skipped, st, [])
  else
    match oracle with
    | [] => (.stillRetrying, st, [])
    | .fetchFatal :: _ => (.fatal, st, [.getFailCall])
    | .fetched remote putRes :: rest =>
      let newContent := contentOf remote ++ logEntry c
      let st1 : LocalState := { st with mirror := some newContent }
      match putRes with
      | .ok =>
        let newLedger := recordHash st1.ledger c.hash
        (.appended newContent,
         { st1 with ledger := newLedger, wsState := some newLedger },
         [.getCall remote, .putCall newContent (shaOf remote)])
      | .conflict =>
        let r := trackGitChange c rest st1
        (r.1, r.2.1, .getCall remote :: .putCall newContent (shaOf remote) :: r.2.2)
      | .fatal =>
        (.fatal, st1, [.getCall remote, .putCall newContent (shaOf remote)])

/-- A call trace in which every conditional write is immediately preceded by
a fetch of the same attempt, writes exactly the fetched content plus the
commit's LogEntry, and passes the fetched version tag as precondition. -/
def wellFormedTrace (c : CommitRecord) : List RemoteCall → Bool
  | [] => true
  | .getCall r :: .putCall ct sha :: rest =>
    (ct == contentOf r ++ logEntry c) && (sha == shaOf r) && wellFormedTrace c rest
  | .getFailCall :: rest => wellFormedTrace c rest
  | _ => false

/-- Whether a sync status is a successful append. -/
def SyncStatus.isAppended : SyncStatus → Bool
  | .appended _ => true
  | _ => false

/-- Content of the last conditional-write call in a trace, if any. -/
def lastPutContent : List RemoteCall → Option String
  | [] => none
  | call :: rest =>
    match lastPutContent rest with
    | some ct => some ct
    | none =>
      match call with
      | .putCall ct _ => some ct
      | _ => none

/-- What the mirror file holds after a run whose trace is `calls`, starting
from mirror state `m0`: the content of the last attempted write, or `m0`
when no write was attempted. -/
def mirrorAfter (calls : List RemoteCall) (m0 : Option String) : Option String :=
  match lastPutContent calls with
  | some ct => some ct
  | none => m0

/-- The commit of the spec's end-to-end scenario (section 8, property 6). -/
def cDead : CommitRecord :=
  { hash := "deadbeef", message := "Initial commit", date := "2024-01-01T00:00:00Z" }

theorem trackGitChange_mem (c : CommitRecord) (oracle : List AttemptResp)
    (st : LocalState) (h : c.hash ∈ st.ledger) :
    trackGitChange c oracle st = (.skipped, st, []) := by
  rw [trackGitChange.eq_def]
  simp [h]

theorem trackGitChange_trace (c : CommitRecord) (oracle : List AttemptResp)
    (st : LocalState) :
    wellFormedTrace c (trackGitChange c oracle st).2.2 = true := by
  induction oracle generalizing st with
  | nil =>
    rw [trackGitChange.eq_def]
    by_cases h : c.hash ∈ st.ledger <;> simp [h, wellFormedTrace]
  | cons a rest ih =>
    rw [trackGitChange.eq_def]
    by_cases h : c.hash ∈ st.ledger
    · simp [h, wellFormedTrace]
    · cases a with
      | fetchFatal => simp [h, wellFormedTrace]
      | fetched remote putRes =>
        cases putRes with
        | ok => simp [h, wellFormedTrace]
        | conflict => simp [h, wellFormedTrace, ih]
        | fatal => simp [h, wellFormedTrace]

theorem trackGitChange_conflict_step (c : CommitRecord)
    (remote : Option (String × String)) (rest : List AttemptResp)
    (st : LocalState) (h : c.hash ∉ st.ledger) :
    trackGitChange c (.fetched remote .conflict :: rest) st =
      ((trackGitChange c rest
          { st with mirror := some (contentOf remote ++ logEntry c) }).1,
       (trackGitChange c rest
          { st with mirror := some (contentOf remote ++ logEntry c) }).2.1,
       .getCall remote :: .putCall (contentOf remote ++ logEntry c) (shaOf remote) ::
         (trackGitChange c rest
           { st with mirror := some (contentOf remote ++ logEntry c) }).2.2) := by
  rw [trackGitChange.eq_def, if_neg h]

theorem trackGitChange_ledger (c : CommitRecord) (oracle : List AttemptResp)
    (st : LocalState) :
    ((trackGitChange c oracle st).1.isAppended = false →
      (trackGitChange c oracle st).2.1.ledger = st.ledger ∧
      (trackGitChange c oracle st).2.1.wsState = st.wsState) ∧
    (∀ nc, (trackGitChange c oracle st).1 = .appended nc →
      (trackGitChange c oracle st).2.1.ledger = recordHash st.ledger c.hash ∧
      (trackGitChange c oracle st).2.1.wsState = some (recordHash st.ledger c.hash)) := by
  induction oracle generalizing st with
  | nil =>
    rw [trackGitChange.eq_def]
    by_cases h : c.hash ∈ st.ledger <;> simp [h, SyncStatus.isAppended]
  | cons a rest ih =>
    rw [trackGitChange.eq_def]
    by_cases h : c.hash ∈ st.ledger
    · simp [h, SyncStatus.isAppended]
    · cases a with
      | fetchFatal => simp [h, SyncStatus.isAppended]
      | fetched remote putRes =>
        cases putRes with
        | ok => simp [h, SyncStatus.isAppended]
        | conflict =>
          rw [if_neg h]
          exact ih { st with mirror := some (contentOf remote ++ logEntry c) }
        | fatal => simp [h, SyncStatus.isAppended]

theorem trackGitChange_fatal_step (c : CommitRecord)
    (remote : Option (String × String)) (rest : List AttemptResp)
    (st : LocalState) (h : c.hash ∉ st.ledger) :
    (trackGitChange c (.fetched remote .fatal :: rest) st).1 = .fatal := by
  rw [trackGitChange.eq_def, if_neg h]

theorem prefix_recordHash (l : List String) (h : String) : l <+: recordHash l h := by
  unfold recordHash
  split
  · exact List.prefix_refl l
  · exact List.prefix_append l [h]

theorem trackGitChange_monotone (c : CommitRecord) (oracle : List AttemptResp)
    (st : LocalState) :
    st.ledger <+: (trackGitChange c oracle st).2.1.ledger := by
  induction oracle generalizing st with
  | nil =>
    rw [trackGitChange.eq_def]
    by_cases h : c.hash ∈ st.ledger <;> simp [h]
  | cons a rest ih =>
    rw [trackGitChange.eq_def]
    by_cases h : c.hash ∈ st.ledger
    · simp [h]
    · cases a with
      | fetchFatal => simp [h]
      | fetched remote putRes =>
        cases putRes with
        | ok =>
          rw [if_neg h]
          exact prefix_recordHash st.ledger c.hash
        | conflict =>
          rw [if_neg h]
          exact ih { st with mirror := some (contentOf remote ++ logEntry c) }
        | fatal => simp [h]

theorem mirrorAfter_cons_put (r : Option (String × String)) (ct : String)
    (sha : Option String) (t : List RemoteCall) (m0 : Option String) :
    mirrorAfter (.getCall r :: .putCall ct sha :: t) m0 = mirrorAfter t (some ct) := by
  cases hl : lastPutContent t <;> simp [mirrorAfter, lastPutContent, hl]

theorem trackGitChange_mirror (c : CommitRecord) (oracle : List AttemptResp)
    (st : LocalState) :
    (trackGitChange c oracle st).2.1.mirror
      = mirrorAfter (trackGitChange c oracle st).2.2 st.mirror := by
  induction oracle generalizing st with
  | nil =>
    rw [trackGitChange.eq_def]
    by_cases h : c.hash ∈ st.ledger <;> simp [h, mirrorAfter, lastPutContent]
  | cons a rest ih =>
    rw [trackGitChange.eq_def]
    by_cases h : c.hash ∈ st.ledger
    · simp [h, mirrorAfter, lastPutContent]
    · cases a with
      | fetchFatal => simp [h, mirrorAfter, lastPutContent]
      | fetched remote putRes =>
        cases putRes with
        | ok => simp [h, mirrorAfter, lastPutContent]
        | conflict =>
          rw [if_neg h]
          show (trackGitChange c rest _).2.1.mirror
            = mirrorAfter (_ :: _ :: (trackGitChange c rest _).2.2) st.mirror
          rw [mirrorAfter_cons_put]
          exact ih { st with mirror := some (contentOf remote ++ logEntry c) }
        | fatal => simp [h, mirrorAfter, lastPutContent]

theorem trackGitChange_appended_mirror (c : CommitRecord) (oracle : List AttemptResp)
    (st : LocalState) (nc : String)
    (happ : (trackGitChange c oracle st).1 = .appended nc) :
    (trackGitChange c oracle st).2.1.mirror = some nc := by
  induction oracle generalizing st with
  | nil =>
    rw [trackGitChange.eq_def] at happ ⊢
    by_cases h : c.hash ∈ st.ledger <;> simp [h] at happ
  | cons a rest ih =>
    rw [trackGitChange.eq_def] at happ ⊢
    by_cases h : c.hash ∈ st.ledger
    · simp [h] at happ
    · cases a with
      | fetchFatal => simp [h] at happ
      | fetched remote putRes =>
        cases putRes with
        | ok =>
          rw [if_neg h] at happ ⊢
          simp at happ
          simp [happ]
        | conflict =>
          rw [if_neg h] at happ ⊢
          exact ih { st with mirror := some (contentOf remote ++ logEntry c) } happ
        | fatal => simp [h] at happ

theorem trackGitChange_conflict_forever (c : CommitRecord)
    (remote : Option (String × String)) (st : LocalState) (n : Nat)
    (h : c.hash ∉ st.ledger) :
    (trackGitChange c (List.replicate n (.fetched remote .conflict)) st).1
      = .stillRetrying := by
  induction n generalizing st with
  | zero =>
    rw [trackGitChange.eq_def]
    simp [h]
  | succ n ih =>
    rw [List.replicate_succ, trackGitChange.eq_def]
    rw [if_neg h]
    exact ih { st with mirror := some (contentOf remote ++ logEntry c) } h

theorem loadProcessedCommits_unmatched (content : String) (ledger : List String)
    (h : ∀ l ∈ splitLines content.toList, matchHash l = none) :
    loadProcessedCommits (.found content) ledger = ledger := by
  have hnil : (((splitLines content.data).filter fun l => !(isBlank l)).filterMap matchHash) = [] := by
    rw [List.filterMap_eq_nil_iff]
    intro a ha
    exact h a (List.mem_of_mem_filter ha)
  simp [loadProcessedCommits, extractHashes, hnil]

theorem foldl_recordHash_extends (hs : List (List Char)) (l : List String) :
    l <+: hs.foldl (fun l h => recordHash l (String.mk h)) l := by
  induction hs generalizing l with
  | nil => exact List.prefix_refl l
  | cons a hs ih =>
    rw [List.foldl_cons]
    exact (prefix_recordHash l (String.mk a)).trans (ih (recordHash l (String.mk a)))

theorem trackGitChange_notFound_create (c : CommitRecord) (st : LocalState)
    (rest : List AttemptResp) (putRes : PutResult) (h : c.hash ∉ st.ledger) :
    ∃ restCalls, (trackGitChange c (.fetched none putRes :: rest) st).2.2
      = .getCall none :: .putCall (logEntry c) none :: restCalls := by
  cases putRes with
  | ok =>
    rw [trackGitChange.eq_def, if_neg h]
    exact ⟨[], rfl⟩
  | conflict =>
    rw [trackGitChange.eq_def, if_neg h]
    exact ⟨_, rfl⟩
  | fatal =>
    rw [trackGitChange.eq_def, if_neg h]
    exact ⟨[], rfl⟩

/-- C1: on a version-conflict (HTTP 409) response from the conditional write,
the sync for the same commit is retried with a fresh fetch: in every run, each
conditional write in the call trace is immediately preceded by a fetch of the
same attempt, writes exactly the content delivered by that fetch plus the
commit's LogEntry, and uses that fetch's version tag as precondition; and a
conflict response makes the run retry the whole operation for the same commit
on the remaining store responses. -/
theorem C1_conflict_retries_refetch_before_rewrite (c : CommitRecord)
    (oracle : List AttemptResp) (st : LocalState) :
    wellFormedTrace c (trackGitChange c oracle st).2.2 = true ∧
    (∀ remote rest, c.hash ∉ st.ledger →
      trackGitChange c (.fetched remote .conflict :: rest) st =
        ((trackGitChange c rest
            { st with mirror := some (contentOf remote ++ logEntry c) }).1,
         (trackGitChange c rest
            { st with mirror := some (contentOf remote ++ logEntry c) }).2.1,
         .getCall remote ::
           .putCall (contentOf remote ++ logEntry c) (shaOf remote) ::
           (trackGitChange c rest
             { st with mirror := some (contentOf remote ++ logEntry c) }).2.2)) :=
  ⟨trackGitChange_trace c oracle st,
   fun remote rest h => trackGitChange_conflict_step c remote rest st h⟩

/-- Witness for C1 at a concrete conflicting store response. -/
theorem C1_conflict_retries_refetch_before_rewrite_witness :
    trackGitChange cDead [.fetched (some ("X", "s1")) .conflict]
        { ledger := [], mirror := none, wsState := none } =
      ((trackGitChange cDead []
          { ledger := [], mirror := some ("X" ++ logEntry cDead), wsState := none }).1,
       (trackGitChange cDead []
          { ledger := [], mirror := some ("X" ++ logEntry cDead), wsState := none }).2.1,
       .getCall (some ("X", "s1")) ::
         .putCall ("X" ++ logEntry cDead) (some "s1") ::
         (trackGitChange cDead []
           { ledger := [], mirror := some ("X" ++ logEntry cDead), wsState := none }).2.2) :=
  (C1_conflict_retries_refetch_before_rewrite cDead []
      { ledger := [], mirror := none, wsState := none }).2
    (some ("X", "s1")) [] (by decide)

/-- C2: a commit whose hash is already in the dedup ledger is skipped
immediately: the run returns status skipped, leaves the local state (ledger,
mirror, workspaceState copy) unchanged, and its remote-call trace is empty,
so in particular no write operation reaches the store and the remote content
and version tag are untouched. -/
theorem C2_dedup_skip_no_remote_calls (c : CommitRecord)
    (oracle : List AttemptResp) (st : LocalState) (h : c.hash ∈ st.ledger) :
    trackGitChange c oracle st = (.skipped, st, []) :=
  trackGitChange_mem c oracle st h

/-- Witness for C2: the scenario commit, already recorded, is skipped. -/
theorem C2_dedup_skip_no_remote_calls_witness :
    trackGitChange cDead [.fetched (some ("X", "s1")) .ok]
        { ledger := ["deadbeef"], mirror := none, wsState := none } =
      (.skipped, { ledger := ["deadbeef"], mirror := none, wsState := none }, []) :=
  C2_dedup_skip_no_remote_calls cDead [.fetched (some ("X", "s1")) .ok]
    { ledger := ["deadbeef"], mirror := none, wsState := none } (by decide)

/-- C3: the ledger is updated only on a confirmed write: whenever a run does
not end in a successful append — fatal fetch error, fatal write error, or
retries still pending — the in-memory ledger and its workspaceState copy are
exactly as before; a successful append records exactly the commit's hash; and
a non-conflict write failure makes the attempt fail fatally. -/
theorem C3_nonconflict_failure_fatal_ledger_unchanged (c : CommitRecord)
    (oracle : List AttemptResp) (st : LocalState) :
    ((trackGitChange c oracle st).1.isAppended = false →
      (trackGitChange c oracle st).2.1.ledger = st.ledger ∧
      (trackGitChange c oracle st).2.1.wsState = st.wsState) ∧
    (∀ nc, (trackGitChange c oracle st).1 = .appended nc →
      (trackGitChange c oracle st).2.1.ledger = recordHash st.ledger c.hash) ∧
    (∀ remote rest, c.hash ∉ st.ledger →
      (trackGitChange c (.fetched remote .fatal :: rest) st).1 = .fatal) :=
  ⟨(trackGitChange_ledger c oracle st).1,
   fun nc h => ((trackGitChange_ledger c oracle st).2 nc h).1,
   fun remote rest h => trackGitChange_fatal_step c remote rest st h⟩

/-- Witness for C3 at a concrete fatally failing write. -/
theorem C3_nonconflict_failure_fatal_ledger_unchanged_witness :
    ((trackGitChange cDead [.fetched (some ("X", "s1")) .fatal]
        { ledger := [], mirror := none, wsState := none }).2.1.ledger = [] ∧
      (trackGitChange cDead [.fetched (some ("X", "s1")) .fatal]
        { ledger := [], mirror := none, wsState := none }).2.1.wsState = none) ∧
    (trackGitChange cDead [.fetched (some ("X", "s1")) .fatal]
        { ledger := [], mirror := none, wsState := none }).1 = .fatal :=
  ⟨(C3_nonconflict_failure_fatal_ledger_unchanged cDead
      [.fetched (some ("X", "s1")) .fatal]
      { ledger := [], mirror := none, wsState := none }).1 (by decide),
   (C3_nonconflict_failure_fatal_ledger_unchanged cDead []
      { ledger := [], mirror := none, wsState := none }).2.2
     (some ("X", "s1")) [] (by decide)⟩

/-- C4: the claim says the conflict-retry loop has a finite attempt cap with
backoff, but the source (extension.ts:176-183) re-invokes trackGitChange on
every 409 with no counter and no delay: against a store that answers every
conditional write with a conflict, the run is still retrying after any number
n of attempts, for every n — the loop is unbounded. -/
theorem C4_conflict_retry_unbounded (n : Nat) :
    (trackGitChange cDead
        (List.replicate n (.fetched (some ("X", "s1")) .conflict))
        { ledger := [], mirror := none, wsState := none }).1 = .stillRetrying :=
  trackGitChange_conflict_forever cDead (some ("X", "s1"))
    { ledger := [], mirror := none, wsState := none } n (by decide)

/-- C5 counterexample: a successful append writes the ledger's full contents
to the workspaceState store (extension.ts:173), a durable store distinct from
the remote log: starting from an empty workspaceState, after the end-to-end
run the workspaceState copy equals the ledger and is no longer empty — so the
ledger is persisted independently of the remote log, contrary to the claim. -/
theorem C5_ledger_persisted_to_workspace_state_counterexample :
    (trackGitChange cDead [.fetched none .ok]
        { ledger := [], mirror := none, wsState := none }).2.1.wsState
      = some (trackGitChange cDead [.fetched none .ok]
          { ledger := [], mirror := none, wsState := none }).2.1.ledger ∧
    (trackGitChange cDead [.fetched none .ok]
        { ledger := [], mirror := none, wsState := none }).2.1.wsState ≠ none := by
  decide

/-- C5 amended: the in-memory ledger never shrinks (the prior ledger is a
prefix of the resulting one), and the ledger IS persisted outside the remote
log: every successful append copies the updated ledger into workspaceState,
while runs without a successful append leave that copy unchanged (the copy is
write-only: startup seeds the ledger from remote content alone). -/
theorem C5_amended_ledger_monotone_persisted_on_append (c : CommitRecord)
    (oracle : List AttemptResp) (st : LocalState) :
    st.ledger <+: (trackGitChange c oracle st).2.1.ledger ∧
    ((trackGitChange c oracle st).1.isAppended = false →
      (trackGitChange c oracle st).2.1.wsState = st.wsState) ∧
    (∀ nc, (trackGitChange c oracle st).1 = .appended nc →
      (trackGitChange c oracle st).2.1.wsState
        = some (trackGitChange c oracle st).2.1.ledger) :=
  ⟨trackGitChange_monotone c oracle st,
   fun h => ((trackGitChange_ledger c oracle st).1 h).2,
   fun nc h => by
     rw [((trackGitChange_ledger c oracle st).2 nc h).2,
       ((trackGitChange_ledger c oracle st).2 nc h).1]⟩

/-- Witness for the amended C5 at a fatal run and at a successful run. -/
theorem C5_amended_ledger_monotone_persisted_on_append_witness :
    (trackGitChange cDead [.fetched (some ("X", "s1")) .fatal]
        { ledger := [], mirror := none, wsState := none }).2.1.wsState = none ∧
    (trackGitChange cDead [.fetched none .ok]
        { ledger := [], mirror := none, wsState := none }).2.1.wsState
      = some (trackGitChange cDead [.fetched none .ok]
          { ledger := [], mirror := none, wsState := none }).2.1.ledger :=
  ⟨(C5_amended_ledger_monotone_persisted_on_append cDead
      [.fetched (some ("X", "s1")) .fatal]
      { ledger := [], mirror := none, wsState := none }).2.1 (by decide),
   (C5_amended_ledger_monotone_persisted_on_append cDead [.fetched none .ok]
      { ledger := [], mirror := none, wsState := none }).2.2
     "[2024-01-01T00:00:00Z] deadbeef: Initial commit\n" (by decide)⟩

/-- C6 counterexample: the mirror file is written before the conditional
write (extension.ts:159-160 precede 162-169), so an attempt whose write fails
fatally has already overwritten the mirror: in this run no successful remote
write happens (status is fatal), yet the mirror changed from unwritten to the
attempted content — contrary to the claim that such attempts leave the mirror
unmodified. -/
theorem C6_mirror_written_before_put_counterexample :
    (trackGitChange cDead [.fetched (some ("X", "s1")) .fatal]
        { ledger := [], mirror := none, wsState := none }).1 = .fatal ∧
    (trackGitChange cDead [.fetched (some ("X", "s1")) .fatal]
        { ledger := [], mirror := none, wsState := none }).2.1.mirror ≠ none := by
  decide

/-- C6 amended: the mirror is overwritten with the candidate full content
(fetched content plus the new LogEntry) immediately before every conditional
write, so after a run it holds the content of the last attempted write —
including attempts that ended in conflict or fatal error — and is unchanged
exactly when no write was attempted; in particular, after a successful append
it holds the appended full content. -/
theorem C6_amended_mirror_tracks_attempted_writes (c : CommitRecord)
    (oracle : List AttemptResp) (st : LocalState) :
    (trackGitChange c oracle st).2.1.mirror
      = mirrorAfter (trackGitChange c oracle st).2.2 st.mirror ∧
    (∀ nc, (trackGitChange c oracle st).1 = .appended nc →
      (trackGitChange c oracle st).2.1.mirror = some nc) :=
  ⟨trackGitChange_mirror c oracle st,
   fun nc h => trackGitChange_appended_mirror c oracle st nc h⟩

/-- Witness for the amended C6 at the successful end-to-end run. -/
theorem C6_amended_mirror_tracks_attempted_writes_witness :
    (trackGitChange cDead [.fetched none .ok]
        { ledger := [], mirror := none, wsState := none }).2.1.mirror
      = some "[2024-01-01T00:00:00Z] deadbeef: Initial commit\n" :=
  (C6_amended_mirror_tracks_attempted_writes cDead [.fetched none .ok]
      { ledger := [], mirror := none, wsState := none }).2
    "[2024-01-01T00:00:00Z] deadbeef: Initial commit\n" (by decide)

/-- C7: the ledger load is total over arbitrary file content (it is a Lean
function, so totality is by construction) and skips non-matching lines: on
the spec's example it returns exactly the hash captured between the closing
bracket-space and the next colon of the one matching line, and any content
none of whose lines match the LogEntry regex leaves the ledger unchanged. -/
theorem C7_load_skips_malformed_lines :
    loadProcessedCommits (.found "not a log line\n[2024] abc123: fix bug\n") []
      = ["abc123"] ∧
    ∀ content ledger, (∀ l ∈ splitLines content.toList, matchHash l = none) →
      loadProcessedCommits (.found content) ledger = ledger :=
  ⟨by decide, fun content ledger h => loadProcessedCommits_unmatched content ledger h⟩

/-- Witness for C7 on content with no matching line. -/
theorem C7_load_skips_malformed_lines_witness :
    loadProcessedCommits (.found "no log entry in here") ["h1"] = ["h1"] :=
  C7_load_skips_malformed_lines.2 "no log entry in here" ["h1"] (by decide)

/-- C8: when the fetch reports the log file as not found (404), the sync
treats the content as empty and its very next store call is a write of
exactly one LogEntry for the commit with no version-tag precondition (the
expected sha is absent on that create call), whatever the write then
returns. -/
theorem C8_not_found_creates_single_entry_without_sha (c : CommitRecord)
    (st : LocalState) (rest : List AttemptResp) (putRes : PutResult)
    (h : c.hash ∉ st.ledger) :
    ∃ restCalls, (trackGitChange c (.fetched none putRes :: rest) st).2.2
      = .getCall none :: .putCall (logEntry c) none :: restCalls :=
  trackGitChange_notFound_create c st rest putRes h

/-- Witness for C8 at the end-to-end scenario run. -/
theorem C8_not_found_creates_single_entry_without_sha_witness :
    ∃ restCalls, (trackGitChange cDead [.fetched none .ok]
        { ledger := [], mirror := none, wsState := none }).2.2
      = .getCall none :: .putCall (logEntry cDead) none :: restCalls :=
  C8_not_found_creates_single_entry_without_sha cDead
    { ledger := [], mirror := none, wsState := none } [] .ok (by decide)

/-- C9: syncing the commit deadbeef / "Initial commit" / 2024-01-01T00:00:00Z
against an empty remote store (fetch returns not-found, write succeeds)
appends exactly the serialized LogEntry as the new remote content, issues
exactly one fetch and one write whose content is that line, and leaves the
ledger equal to the singleton deadbeef. -/
theorem C9_end_to_end_scenario :
    (trackGitChange cDead [.fetched none .ok]
        { ledger := [], mirror := none, wsState := none }).1
      = .appended "[2024-01-01T00:00:00Z] deadbeef: Initial commit\n" ∧
    (trackGitChange cDead [.fetched none .ok]
        { ledger := [], mirror := none, wsState := none }).2.1.ledger
      = ["deadbeef"] ∧
    (trackGitChange cDead [.fetched none .ok]
        { ledger := [], mirror := none, wsState := none }).2.2
      = [.getCall none,
         .putCall "[2024-01-01T00:00:00Z] deadbeef: Initial commit\n" none] := by
  decide

/-- C10: the ledger load never raises: every failed remote read (404, any
other error, or a response without file content) returns with the ledger it
was given, and a load from any response only ever extends the existing
in-memory set (the prior ledger is a prefix of the result), so repeated
loads are monotone. -/
theorem C10_load_error_monotone (ledger : List String) :
    loadProcessedCommits .err404 ledger = ledger ∧
    loadProcessedCommits .errOther ledger = ledger ∧
    loadProcessedCommits .foundNonFile ledger = ledger ∧
    ∀ r, ledger <+: loadProcessedCommits r ledger := by
  refine ⟨rfl, rfl, rfl, fun r => ?_⟩
  cases r with
  | found content => exact foldl_recordHash_extends (extractHashes content.toList) ledger
  | foundNonFile => exact List.prefix_refl ledger
  | err404 => exact List.prefix_refl ledger
  | errOther => exact List.prefix_refl ledger
